import Mathlib

/-!
Verification of the `ArgsParser` engine of the clime command-line library.

The definitions below are a shallow embedding of `src/cli.ts`
(`ArgsParser.parse` and its helper closures `consumeFlags`,
`consumeToggleOrOption`, `consumeOption`, `consumeArgument`,
`castArgument`, plus the constructor).  JavaScript values are modelled as
follows:

* JS numbers are an inductive `JSNum` (`nan`, exact rational, signed
  infinity).  IEEE-754 rounding is abstracted to exact rationals: the
  program only feeds string-parsed numbers through `Boolean`/storage, and
  the properties checked here depend only on zero / nonzero / NaN.
* JS plain objects used as string-keyed maps are insertion-ordered
  association lists (`objGet` / `objSet` / `objDelete` / `objKeys`).
  The exotic ECMAScript behaviours for integer-like keys (iteration
  reordering) and for `__proto__` are not modelled; option names and
  flags in clime are ordinary identifier-like strings.
* `undefined` as a possible value of a variable/field is `Option`;
  the `undefined` *value* stored by a cast is `Value.undef`.
* Exceptions become an `Except Err` result: `Err.usage m` embeds
  `throw new UsageError(helpProvider, m)` (the help-provider reference is
  dropped, only the message is observable here) and `Err.typeError`
  embeds the JS `TypeError` raised when a property of `undefined` is
  accessed - those branches are unreachable for parsers built by the
  constructor.
-/

namespace Clime

/-- `ParseContext` (`{ cwd, commands }`) passed to custom casts and put in
the result. -/
structure Context where
  cwd : String
  commands : List String
deriving DecidableEq, Repr

/-- A JavaScript number as observed by the parser: NaN, an (exact)
rational, or a signed infinity. -/
inductive JSNum where
  | nan
  | num (q : Rat)
  | inf (neg : Bool)
deriving DecidableEq, Repr

/-- JS `Boolean(n)` on a number: `NaN` and `±0` are falsy. -/
def jsBool (n : JSNum) : Bool :=
  match n with
  | .nan => false
  | .num q => decide (q ≠ 0)
  | .inf _ => true

/-- Characters treated as whitespace by ECMAScript `ToNumber`
(the common ones; exotic Unicode space separators are omitted, no token
in the claims uses them). -/
def isJsWhitespaceChar (c : Char) : Bool :=
  c = ' ' || c = '\t' || c = '\n' || c = '\r' ||
  c = '\x0b' || c = '\x0c' || c = ' ' || c = '﻿'

/-- Strip leading and trailing JS whitespace. -/
def jsTrim (cs : List Char) : List Char :=
  ((cs.dropWhile isJsWhitespaceChar).reverse.dropWhile isJsWhitespaceChar).reverse

/-- Value of a list of decimal digits. -/
def digitsToNat (ds : List Char) : Nat :=
  ds.foldl (fun n c => n * 10 + (c.toNat - '0'.toNat)) 0

/-- Value of a list of hexadecimal digits. -/
def hexDigitsToNat (ds : List Char) : Nat :=
  ds.foldl (fun n c =>
    n * 16 +
      (if c.isDigit then c.toNat - '0'.toNat
       else if 'a' ≤ c ∧ c ≤ 'f' then c.toNat - 'a'.toNat + 10
       else c.toNat - 'A'.toNat + 10)) 0

/-- `[+-]? DecimalDigits⁺` (exponent part of a decimal literal). -/
def parseSignedDigits (cs : List Char) : Option Int :=
  match cs with
  | '+' :: ds => if ds ≠ [] ∧ ds.all Char.isDigit then some (digitsToNat ds) else none
  | '-' :: ds => if ds ≠ [] ∧ ds.all Char.isDigit then some (-(digitsToNat ds : Int)) else none
  | ds => if ds ≠ [] ∧ ds.all Char.isDigit then some (digitsToNat ds) else none

/-- Mantissa of an unsigned decimal literal: `digits [. digits]` or
`. digits`; returns its value and the unconsumed rest. -/
def parseDecMantissa (cs : List Char) : Option (Rat × List Char) :=
  let ip := cs.takeWhile Char.isDigit
  let r1 := cs.dropWhile Char.isDigit
  match r1 with
  | '.' :: r2 =>
      let fp := r2.takeWhile Char.isDigit
      let r3 := r2.dropWhile Char.isDigit
      if ip = [] ∧ fp = [] then none
      else some ((digitsToNat ip : Rat) + (digitsToNat fp : Rat) / (10 : Rat) ^ fp.length, r3)
  | _ => if ip = [] then none else some ((digitsToNat ip : Rat), r1)

/-- An unsigned decimal literal with optional exponent, consuming the whole
input. -/
def parseDecimalLit (cs : List Char) : Option Rat :=
  match parseDecMantissa cs with
  | none => none
  | some (m, rest) =>
    match rest with
    | [] => some m
    | 'e' :: r => (parseSignedDigits r).map (fun e => m * (10 : Rat) ^ e)
    | 'E' :: r => (parseSignedDigits r).map (fun e => m * (10 : Rat) ^ e)
    | _ => none

/-- `StrNumericLiteral` after trimming: hex/octal/binary literal (no
sign), or a signed decimal literal or `Infinity`. -/
def parseNumericLit (cs : List Char) : Option JSNum :=
  match cs with
  | '0' :: 'x' :: ds => if ds ≠ [] ∧ ds.all (fun c => c.isDigit || ('a' ≤ c ∧ c ≤ 'f') || ('A' ≤ c ∧ c ≤ 'F'))
      then some (.num (hexDigitsToNat ds : Rat)) else none
  | '0' :: 'X' :: ds => if ds ≠ [] ∧ ds.all (fun c => c.isDigit || ('a' ≤ c ∧ c ≤ 'f') || ('A' ≤ c ∧ c ≤ 'F'))
      then some (.num (hexDigitsToNat ds : Rat)) else none
  | '0' :: 'b' :: ds => if ds ≠ [] ∧ ds.all (fun c => c = '0' ∨ c = '1')
      then some (.num (ds.foldl (fun n c => n * 2 + (c.toNat - '0'.toNat)) 0 : Rat)) else none
  | '0' :: 'B' :: ds => if ds ≠ [] ∧ ds.all (fun c => c = '0' ∨ c = '1')
      then some (.num (ds.foldl (fun n c => n * 2 + (c.toNat - '0'.toNat)) 0 : Rat)) else none
  | '0' :: 'o' :: ds => if ds ≠ [] ∧ ds.all (fun c => '0' ≤ c ∧ c ≤ '7')
      then some (.num (ds.foldl (fun n c => n * 8 + (c.toNat - '0'.toNat)) 0 : Rat)) else none
  | '0' :: 'O' :: ds => if ds ≠ [] ∧ ds.all (fun c => '0' ≤ c ∧ c ≤ '7')
      then some (.num (ds.foldl (fun n c => n * 8 + (c.toNat - '0'.toNat)) 0 : Rat)) else none
  | _ =>
    let signed : Bool × List Char :=
      match cs with
      | '+' :: rest => (false, rest)
      | '-' :: rest => (true, rest)
      | rest => (false, rest)
    if signed.2 = ['I', 'n', 'f', 'i', 'n', 'i', 't', 'y'] then some (.inf signed.1)
    else
      match parseDecimalLit signed.2 with
      | some q => some (.num (if signed.1 then -q else q))
      | none => none

/-- Models ECMAScript `Number(s)` on a string: trim, empty string is `0`,
otherwise a numeric literal or `NaN`. -/
def jsToNumber (s : String) : JSNum :=
  let cs := jsTrim s.data
  if cs = [] then .num 0
  else
    match parseNumericLit cs with
    | some v => v
    | none => .nan

/-! ## JS objects as insertion-ordered association lists -/

/-- `m[k]`, `undefined` when absent. -/
def objGet {α : Type} (m : List (String × α)) (k : String) : Option α :=
  match m with
  | [] => none
  | (k', v) :: rest => if k' = k then some v else objGet rest k

/-- `m.hasOwnProperty(k)`. -/
def objHasOwn {α : Type} (m : List (String × α)) (k : String) : Bool :=
  (objGet m k).isSome

/-- `m[k] = v`: overwrite in place, or append a new key. -/
def objSet {α : Type} (m : List (String × α)) (k : String) (v : α) : List (String × α) :=
  match m with
  | [] => [(k, v)]
  | (k', v') :: rest => if k' = k then (k', v) :: rest else (k', v') :: objSet rest k v

/-- `delete m[k]`. -/
def objDelete {α : Type} (m : List (String × α)) (k : String) : List (String × α) :=
  match m with
  | [] => []
  | (k', v') :: rest => if k' = k then rest else (k', v') :: objDelete rest k

/-- `Object.keys(m)` (insertion order). -/
def objKeys {α : Type} (m : List (String × α)) : List String :=
  m.map Prod.fst

/-! ## Values and types -/

/-- A value produced by casting / default-filling. -/
inductive Value where
  | str (s : String)
  | num (n : JSNum)
  | bool (b : Bool)
  | undef
deriving DecidableEq, Repr

/-- The declared type of a parameter or option: the constructors
`String` / `Number` / `Boolean` matched by identity in `castArgument`, a
custom string-castable type (its `cast(arg, context)` operation), or any
other constructor (`isStringCastable` false). -/
inductive CType where
  | string
  | number
  | boolean
  | castable (cast : String → Context → Value)
  | plain

/-- `arg.toLowerCase()`: JS lowercases character by character; only the
ASCII mapping matters here, since no non-ASCII character lowercases to a
character of `"false"`. -/
def strToLower (s : String) : String :=
  String.mk (s.data.map Char.toLower)

/-- `castArgument(arg, type)` from `ArgsParser.parse`: total, never
throws. -/
def castArgument (arg : String) (type : CType) (context : Context) : Value :=
  match type with
  | .string => .str arg
  | .number => .num (jsToNumber arg)
  | .boolean =>
      if strToLower arg = "false" then .bool false
      else
        match jsToNumber arg with
        | .nan => .bool true
        | n => .bool (jsBool n)
  | .castable cast => cast arg context
  | .plain => Value.undef

/-! ## Schema -/

/-- `ParamDefinition<any>` as read by the parser: `name`, `type`,
`default` (`Value.undef` when no default is declared). -/
structure ParamDefinition where
  name : String
  type : CType
  default : Value

/-- `ParamsDefinition<any>` (the variadic tail) as read by the parser. -/
structure ParamsDefinition where
  name : String
  type : CType
  required : Bool

/-- `OptionDefinition<any>`: `flag` is `none` for `undefined` (the empty
string is also falsy in the constructor's `if (flag)` test). -/
structure OptionDefinition where
  name : String
  flag : Option String
  type : CType
  required : Bool
  toggle : Bool
  default : Value

/-- The constructed `ArgsParser` instance: the schema fields plus the
two lookup maps built by the constructor (`none` embeds `undefined`,
used when the corresponding schema piece is `undefined`). -/
structure ArgsParser where
  paramDefinitions : Option (List ParamDefinition)
  paramsDefinition : Option ParamsDefinition
  optionDefinitions : Option (List OptionDefinition)
  requiredParamsNumber : Nat
  optionDefinitionMap : Option (List (String × OptionDefinition))
  optionFlagMapping : Option (List (String × String))

/-- The `ArgsParser` constructor: builds `optionDefinitionMap` and
`optionFlagMapping` in one pass over `optionDefinitions` when that is
defined (the `helpProvider` argument is dropped: it is only stored inside
raised `UsageError`s, whose observable part here is the message). -/
def ArgsParser.make (paramDefinitions : Option (List ParamDefinition))
    (paramsDefinition : Option ParamsDefinition)
    (optionDefinitions : Option (List OptionDefinition))
    (requiredParamsNumber : Nat) : ArgsParser :=
  match optionDefinitions with
  | none =>
      { paramDefinitions, paramsDefinition, optionDefinitions,
        requiredParamsNumber,
        optionDefinitionMap := none, optionFlagMapping := none }
  | some defs =>
      let maps := defs.foldl
        (fun (ms : List (String × OptionDefinition) × List (String × String)) d =>
          (objSet ms.1 d.name d,
           match d.flag with
           | some f => if f = "" then ms.2 else objSet ms.2 f d.name
           | none => ms.2))
        ([], [])
      { paramDefinitions, paramsDefinition, optionDefinitions,
        requiredParamsNumber,
        optionDefinitionMap := some maps.1, optionFlagMapping := some maps.2 }

/-! ## Parse state and result -/

/-- The per-call mutable state of `ArgsParser.parse`: the accumulators
and the pending (not yet consumed) positional definitions. -/
structure ParseState where
  commandArgs : List Value
  commandOptions : Option (List (String × Value))
  commandExtraArgs : List Value
  requiredOptionMap : Option (List (String × Bool))
  pendingParamDefinitions : List ParamDefinition

/-- A successful `ParsedArgs` result (the non-help shape). -/
structure ParsedArgs where
  args : List Value
  extraArgs : List Value
  options : Option (List (String × Value))
  context : Context
deriving DecidableEq, Repr

/-- What `parse` returns when it does not throw: `{help: true}` or the
full result. -/
inductive ParseResult where
  | help
  | result (r : ParsedArgs)
deriving DecidableEq, Repr

/-- A raised exception: a `UsageError` with its message, or the JS
`TypeError` of the branches that read a property of `undefined`
(unreachable for parsers built by `ArgsParser.make`). -/
inductive Err where
  | usage (message : String)
  | typeError
deriving DecidableEq, Repr

instance {ε α : Type} [DecidableEq ε] [DecidableEq α] : DecidableEq (Except ε α) := fun a b =>
  match a, b with
  | .error e1, .error e2 =>
      if h : e1 = e2 then isTrue (by rw [h]) else isFalse (fun hc => h (Except.error.inj hc))
  | .ok v1, .ok v2 =>
      if h : v1 = v2 then isTrue (by rw [h]) else isFalse (fun hc => h (Except.ok.inj hc))
  | .error _, .ok _ => isFalse (fun hc => Except.noConfusion hc)
  | .ok _, .error _ => isFalse (fun hc => Except.noConfusion hc)

/-- `/^(?:-[h?]|--help)$/.test(arg)`. -/
def isHelpToken (arg : String) : Bool :=
  arg = "-h" || arg = "-?" || arg = "--help"

/-- `s[n]` in JS: the `n`-th character, `undefined` out of range. -/
def strCharAt (s : String) (n : Nat) : Option Char :=
  s.data.get? n

/-- `s.substr(n)` in JS. -/
def strDrop (s : String) (n : Nat) : String :=
  String.mk (s.data.drop n)

/-- The initial per-call state built at the top of `parse`:
`commandOptions` pre-filled with `false` for toggles and the declared
default otherwise, `requiredOptionMap` holding every required option. -/
def initState (p : ArgsParser) : ParseState :=
  match p.optionDefinitions with
  | none =>
      { commandArgs := [], commandOptions := none, commandExtraArgs := [],
        requiredOptionMap := none,
        pendingParamDefinitions := p.paramDefinitions.getD [] }
  | some defs =>
      { commandArgs := [],
        commandOptions := some (defs.foldl
          (fun m d => objSet m d.name (if d.toggle then Value.bool false else d.default)) []),
        commandExtraArgs := [],
        requiredOptionMap := some (defs.foldl
          (fun m d => if d.required then objSet m d.name true else m) []),
        pendingParamDefinitions := p.paramDefinitions.getD [] }

/-- `commandOptions[name] = v` (TypeError when `commandOptions` is
`undefined`; unreachable from `parse`). -/
def setOption (st : ParseState) (name : String) (v : Value) : Except Err ParseState :=
  match st.commandOptions with
  | none => .error .typeError
  | some co => .ok { st with commandOptions := some (objSet co name v) }

/-- `if (definition.required) delete requiredOptionMap[name]`. -/
def deleteRequired (st : ParseState) (defn : OptionDefinition) (name : String) :
    Except Err ParseState :=
  if defn.required then
    match st.requiredOptionMap with
    | none => .error .typeError
    | some rm => .ok { st with requiredOptionMap := some (objDelete rm name) }
  else .ok st

/-- The `consumeOption` closure: consume the next token (`next` is
`args.head?` after the current token was shifted) as the option's value. -/
def consumeOption (ctx : Context) (st : ParseState) (name : String)
    (defn : OptionDefinition) (next : Option String) : Except Err ParseState :=
  match next with
  | none => .error (.usage ("Expecting value for option `" ++ name ++ "`"))
  | some arg =>
      if strCharAt arg 0 = some '-' then
        .error (.usage ("Expecting a value instead of an option or toggle \"" ++ arg ++
          "\" for option `" ++ name ++ "`"))
      else setOption st name (castArgument arg defn.type ctx)

/-- The `consumeToggleOrOption` closure (token was `--name`).  The `Bool`
of the result records whether a value token was shifted off `args`. -/
def consumeToggleOrOption (p : ArgsParser) (ctx : Context) (st : ParseState)
    (name : String) (next : Option String) : Except Err (ParseState × Bool) :=
  match p.optionDefinitionMap with
  | none => .error (.usage ("Unknown option `" ++ name ++ "`"))
  | some dm =>
      match objGet dm name with
      | none => .error (.usage ("Unknown option `" ++ name ++ "`"))
      | some defn =>
          match deleteRequired st defn name with
          | .error e => .error e
          | .ok st1 =>
              if defn.toggle then
                (setOption st1 name (.bool true)).map (fun s => (s, false))
              else
                (consumeOption ctx st1 name defn next).map (fun s => (s, true))

/-- The `consumeFlags` closure (token was `-<flags>`); processes the
cluster left to right, only the last character may consume a value. -/
def consumeFlags (p : ArgsParser) (ctx : Context) (st : ParseState)
    (flags : List Char) (next : Option String) : Except Err (ParseState × Bool) :=
  match flags with
  | [] => .ok (st, false)
  | flag :: restFlags =>
      match p.optionFlagMapping with
      | none => .error (.usage ("Unknown option flag \"" ++ String.mk [flag] ++ "\""))
      | some fm =>
          match objGet fm (String.mk [flag]) with
          | none => .error (.usage ("Unknown option flag \"" ++ String.mk [flag] ++ "\""))
          | some name =>
              match p.optionDefinitionMap with
              | none => .error .typeError
              | some dm =>
                  match objGet dm name with
                  | none => .error .typeError
                  | some defn =>
                      match deleteRequired st defn name with
                      | .error e => .error e
                      | .ok st1 =>
                          if defn.toggle then
                            match setOption st1 name (.bool true) with
                            | .error e => .error e
                            | .ok st2 => consumeFlags p ctx st2 restFlags next
                          else
                            if restFlags ≠ [] then
                              .error (.usage "Only the last flag in a sequence can refer to an option instead of a toggle")
                            else
                              match consumeOption ctx st1 name defn next with
                              | .error e => .error e
                              | .ok st2 => .ok (st2, true)

/-- The `consumeArgument` closure: fill the next pending positional, or
append to the extra values (cast with the variadic type when present). -/
def consumeArgument (ctx : Context) (paramsType : Option CType)
    (st : ParseState) (arg : String) : ParseState :=
  match st.pendingParamDefinitions with
  | defn :: rest =>
      { st with pendingParamDefinitions := rest,
                commandArgs := st.commandArgs ++ [castArgument arg defn.type ctx] }
  | [] =>
      { st with commandExtraArgs := st.commandExtraArgs ++
          [match paramsType with
           | some t => castArgument arg t ctx
           | none => .str arg] }

/-- The `while (args.length)` token-consumption loop of `parse`.
`.ok none` signals a help request; the `(st', true)` case with an empty
rest is unreachable (a value token was shifted, so `rest` is nonempty). -/
def consumeLoop (p : ArgsParser) (ctx : Context) (st : ParseState)
    (args : List String) : Except Err (Option ParseState) :=
  match args with
  | [] => .ok (some st)
  | arg :: rest =>
      if isHelpToken arg then .ok none
      else if strCharAt arg 0 = some '-' then
        match
          (if strCharAt arg 1 = some '-' then
            consumeToggleOrOption p ctx st (strDrop arg 2) rest.head?
          else
            consumeFlags p ctx st (strDrop arg 1).data rest.head?) with
        | .error e => .error e
        | .ok (st', false) => consumeLoop p ctx st' rest
        | .ok (st', true) =>
            match rest with
            | [] => .ok (some st')
            | _ :: rest' => consumeLoop p ctx st' rest'
      else
        consumeLoop p ctx
          (consumeArgument ctx (p.paramsDefinition.map ParamsDefinition.type) st arg) rest

/-- The validation stage after the loop: required positionals, required
options, default filling, excess positionals, required variadic - in the
source order, each failure terminal. -/
def validate (p : ArgsParser) (ctx : Context) (st : ParseState) :
    Except Err ParsedArgs :=
  if st.commandArgs.length < p.requiredParamsNumber then
    .error (.usage ("Expecting argument(s) " ++ String.intercalate ", "
      ((st.pendingParamDefinitions.take
          (p.requiredParamsNumber - st.commandArgs.length)).map
        (fun d => "`" ++ d.name ++ "`"))))
  else
    match st.requiredOptionMap.map objKeys with
    | some (n :: ns) =>
        .error (.usage ("Missing required option(s) `" ++
          String.intercalate "`, `" (n :: ns) ++ "`"))
    | _ =>
        if st.commandExtraArgs.length ≠ 0 then
          match p.paramsDefinition with
          | none =>
              .error (.usage ("Expecting " ++
                toString (p.paramDefinitions.getD []).length ++
                " parameter(s) at most but got " ++
                toString (st.commandExtraArgs.length +
                  (p.paramDefinitions.getD []).length) ++ " instead"))
          | some _ =>
              .ok { args := st.commandArgs ++
                      st.pendingParamDefinitions.map ParamDefinition.default,
                    extraArgs := st.commandExtraArgs,
                    options := st.commandOptions, context := ctx }
        else
          match p.paramsDefinition with
          | some pd =>
              if pd.required then
                .error (.usage ("Expecting at least one element for variadic parameters `" ++
                  pd.name ++ "`"))
              else
                .ok { args := st.commandArgs ++
                        st.pendingParamDefinitions.map ParamDefinition.default,
                      extraArgs := st.commandExtraArgs,
                      options := st.commandOptions, context := ctx }
          | none =>
              .ok { args := st.commandArgs ++
                      st.pendingParamDefinitions.map ParamDefinition.default,
                    extraArgs := st.commandExtraArgs,
                    options := st.commandOptions, context := ctx }

/-- `ArgsParser.parse(sequence, args, cwd)`. -/
def ArgsParser.parse (p : ArgsParser) (sequence : List String)
    (args : List String) (cwd : String) : Except Err ParseResult :=
  let ctx : Context := { cwd := cwd, commands := sequence }
  match consumeLoop p ctx (initState p) args with
  | .error e => .error e
  | .ok none => .ok .help
  | .ok (some st) =>
      match validate p ctx st with
      | .error e => .error e
      | .ok r => .ok (.result r)

/-- Explicit-state form of `parse`: the source method reads the instance
fields (`paramDefinitions`, the two lookup maps, ...) but never assigns
to them - every mutable binding in its body is a fresh local (including
the `args.concat()` copy of the caller's token array) - so the
state-passing translation returns the instance unchanged. -/
def ArgsParser.parseSt (p : ArgsParser) (sequence : List String)
    (args : List String) (cwd : String) : Except Err ParseResult × ArgsParser :=
  (p.parse sequence args cwd, p)

/-! ## Frame lemmas: the option-consuming steps leave the positional
accumulators and the pending definitions untouched -/

/-- The fields of the parse state not touched by option consumption. -/
def framePreserved (st st' : ParseState) : Prop :=
  st'.commandArgs = st.commandArgs ∧
  st'.pendingParamDefinitions = st.pendingParamDefinitions ∧
  st'.commandExtraArgs = st.commandExtraArgs

theorem framePreserved_refl (st : ParseState) : framePreserved st st :=
  ⟨rfl, rfl, rfl⟩

theorem framePreserved_trans {s t u : ParseState}
    (h1 : framePreserved s t) (h2 : framePreserved t u) : framePreserved s u :=
  ⟨h2.1.trans h1.1, h2.2.1.trans h1.2.1, h2.2.2.trans h1.2.2⟩

theorem setOption_frame {st st' : ParseState} {n : String} {v : Value}
    (h : setOption st n v = .ok st') : framePreserved st st' := by
  unfold setOption at h
  split at h
  · exact absurd h (by simp)
  · cases h
    exact ⟨rfl, rfl, rfl⟩

theorem deleteRequired_frame {st st' : ParseState} {d : OptionDefinition} {n : String}
    (h : deleteRequired st d n = .ok st') : framePreserved st st' := by
  unfold deleteRequired at h
  split at h
  · split at h
    · exact absurd h (by simp)
    · cases h
      exact ⟨rfl, rfl, rfl⟩
  · cases h
    exact ⟨rfl, rfl, rfl⟩

theorem consumeOption_frame {ctx : Context} {st st' : ParseState} {n : String}
    {d : OptionDefinition} {next : Option String}
    (h : consumeOption ctx st n d next = .ok st') : framePreserved st st' := by
  unfold consumeOption at h
  split at h
  · exact absurd h (by simp)
  · split at h
    · exact absurd h (by simp)
    · exact setOption_frame h

theorem consumeToggleOrOption_frame {p : ArgsParser} {ctx : Context}
    {st st' : ParseState} {n : String} {next : Option String} {b : Bool}
    (h : consumeToggleOrOption p ctx st n next = .ok (st', b)) :
    framePreserved st st' := by
  unfold consumeToggleOrOption at h
  split at h
  · exact absurd h (by simp)
  · split at h
    · exact absurd h (by simp)
    · rename_i dm hdm defn hget
      split at h
      · exact absurd h (by simp)
      · rename_i st1 hdel
        split at h
        · match hso : setOption st1 n (.bool true) with
          | .error e => rw [hso] at h; exact absurd h (by simp [Except.map])
          | .ok st2 =>
              rw [hso] at h
              simp [Except.map] at h
              cases h.1
              exact framePreserved_trans (deleteRequired_frame hdel) (setOption_frame hso)
        · match hco : consumeOption ctx st1 n defn next with
          | .error e => rw [hco] at h; exact absurd h (by simp [Except.map])
          | .ok st2 =>
              rw [hco] at h
              simp [Except.map] at h
              cases h.1
              exact framePreserved_trans (deleteRequired_frame hdel) (consumeOption_frame hco)

theorem consumeFlags_frame {p : ArgsParser} {ctx : Context}
    {st : ParseState} {flags : List Char} :
    ∀ {st' : ParseState} {next : Option String} {b : Bool},
    consumeFlags p ctx st flags next = .ok (st', b) → framePreserved st st' := by
  induction flags generalizing st with
  | nil =>
      intro st' next b h
      unfold consumeFlags at h
      cases h
      exact ⟨rfl, rfl, rfl⟩
  | cons flag restFlags ih =>
      intro st' next b h
      unfold consumeFlags at h
      split at h
      · exact absurd h (by simp)
      · split at h
        · exact absurd h (by simp)
        · split at h
          · exact absurd h (by simp)
          · split at h
            · exact absurd h (by simp)
            · rename_i defn hget
              split at h
              · exact absurd h (by simp)
              · rename_i st1 hdel
                split at h
                · split at h
                  · exact absurd h (by simp)
                  · rename_i st2 hso
                    exact framePreserved_trans
                      (framePreserved_trans (deleteRequired_frame hdel) (setOption_frame hso))
                      (ih h)
                · split at h
                  · exact absurd h (by simp)
                  · split at h
                    · exact absurd h (by simp)
                    · rename_i st2 hco
                      cases h
                      exact framePreserved_trans (deleteRequired_frame hdel)
                        (consumeOption_frame hco)

/-! ## How the steps use the lookahead token -/

theorem consumeOption_ok_next {ctx : Context} {st st' : ParseState} {n : String}
    {d : OptionDefinition} {next : Option String}
    (h : consumeOption ctx st n d next = .ok st') : ∃ v, next = some v := by
  unfold consumeOption at h
  split at h
  · exact absurd h (by simp)
  · rename_i v
    exact ⟨v, rfl⟩

theorem consumeToggleOrOption_false_next {p : ArgsParser} {ctx : Context}
    {st st' : ParseState} {n : String} {n1 : Option String}
    (h : consumeToggleOrOption p ctx st n n1 = .ok (st', false)) (n2 : Option String) :
    consumeToggleOrOption p ctx st n n2 = .ok (st', false) := by
  unfold consumeToggleOrOption at h ⊢
  split at h
  · exact absurd h (by simp)
  · rename_i dm hdm
    split at h
    · exact absurd h (by simp)
    · rename_i defn hget
      split at h
      · exact absurd h (by simp)
      · rename_i st1 hdel
        split at h
        · rename_i htog
          simp only [if_pos htog]
          exact h
        · exfalso
          match hco : consumeOption ctx st1 n defn n1 with
          | .error e => rw [hco] at h; exact absurd h (by simp [Except.map])
          | .ok st2 => rw [hco] at h; simp [Except.map] at h

theorem consumeToggleOrOption_true_next {p : ArgsParser} {ctx : Context}
    {st st' : ParseState} {n : String} {n1 : Option String}
    (h : consumeToggleOrOption p ctx st n n1 = .ok (st', true)) :
    ∃ v, n1 = some v := by
  unfold consumeToggleOrOption at h
  split at h
  · exact absurd h (by simp)
  · split at h
    · exact absurd h (by simp)
    · rename_i defn hget
      split at h
      · exact absurd h (by simp)
      · rename_i st1 hdel
        split at h
        · exfalso
          match hso : setOption st1 n (.bool true) with
          | .error e => rw [hso] at h; exact absurd h (by simp [Except.map])
          | .ok st2 => rw [hso] at h; simp [Except.map] at h
        · match hco : consumeOption ctx st1 n defn n1 with
          | .error e => rw [hco] at h; exact absurd h (by simp [Except.map])
          | .ok st2 => exact consumeOption_ok_next hco

theorem consumeFlags_false_next {p : ArgsParser} {ctx : Context}
    {st : ParseState} {flags : List Char} :
    ∀ {st' : ParseState} {n1 : Option String},
    consumeFlags p ctx st flags n1 = .ok (st', false) → ∀ n2 : Option String,
    consumeFlags p ctx st flags n2 = .ok (st', false) := by
  induction flags generalizing st with
  | nil =>
      intro st' n1 h n2
      unfold consumeFlags at h ⊢
      cases h
      rfl
  | cons flag restFlags ih =>
      intro st' n1 h n2
      unfold consumeFlags at h ⊢
      split at h
      · exact absurd h (by simp)
      · rename_i fm hfm
        split at h
        · exact absurd h (by simp)
        · rename_i name hname
          split at h
          · exact absurd h (by simp)
          · rename_i dm hdm
            split at h
            · exact absurd h (by simp)
            · rename_i defn hget
              split at h
              · exact absurd h (by simp)
              · rename_i st1 hdel
                split at h
                · rename_i htog
                  simp only [if_pos htog]
                  split at h
                  · exact absurd h (by simp)
                  · exact ih h n2
                · rename_i htog
                  simp only [if_neg htog]
                  split at h
                  · exact absurd h (by simp)
                  · split at h
                    · exact absurd h (by simp)
                    · exfalso
                      cases h

theorem consumeFlags_true_next {p : ArgsParser} {ctx : Context}
    {st : ParseState} {flags : List Char} :
    ∀ {st' : ParseState} {n1 : Option String},
    consumeFlags p ctx st flags n1 = .ok (st', true) → ∃ v, n1 = some v := by
  induction flags generalizing st with
  | nil =>
      intro st' n1 h
      unfold consumeFlags at h
      cases h
  | cons flag restFlags ih =>
      intro st' n1 h
      unfold consumeFlags at h
      split at h
      · exact absurd h (by simp)
      · split at h
        · exact absurd h (by simp)
        · split at h
          · exact absurd h (by simp)
          · split at h
            · exact absurd h (by simp)
            · rename_i defn hget
              split at h
              · exact absurd h (by simp)
              · rename_i st1 hdel
                split at h
                · split at h
                  · exact absurd h (by simp)
                  · exact ih h
                · split at h
                  · exact absurd h (by simp)
                  · split at h
                    · exact absurd h (by simp)
                    · rename_i st2 hco
                      exact consumeOption_ok_next hco

/-! ## One-step unfolding of the consumption loop -/

theorem consumeLoop_nil (p : ArgsParser) (ctx : Context) (st : ParseState) :
    consumeLoop p ctx st [] = .ok (some st) := rfl

theorem consumeLoop_cons (p : ArgsParser) (ctx : Context) (st : ParseState)
    (arg : String) (rest : List String) :
    consumeLoop p ctx st (arg :: rest) =
      (if isHelpToken arg then .ok none
       else if strCharAt arg 0 = some '-' then
         match
           (if strCharAt arg 1 = some '-' then
             consumeToggleOrOption p ctx st (strDrop arg 2) rest.head?
           else
             consumeFlags p ctx st (strDrop arg 1).data rest.head?) with
         | .error e => .error e
         | .ok (st', false) => consumeLoop p ctx st' rest
         | .ok (st', true) =>
             match rest with
             | [] => .ok (some st')
             | _ :: rest' => consumeLoop p ctx st' rest'
       else
         consumeLoop p ctx
           (consumeArgument ctx (p.paramsDefinition.map ParamsDefinition.type) st arg) rest) := by
  rw [consumeLoop]

/-- A token prefix that the loop consumes without error and without a
help request is consumed the same way when more tokens follow it. -/
theorem consumeLoop_append (p : ArgsParser) (ctx : Context) :
    ∀ (pre : List String) (st st1 : ParseState) (rest : List String),
    consumeLoop p ctx st pre = .ok (some st1) →
    consumeLoop p ctx st (pre ++ rest) = consumeLoop p ctx st1 rest := by
  have main : ∀ (n : Nat) (pre : List String), pre.length ≤ n →
      ∀ (st st1 : ParseState) (rest : List String),
      consumeLoop p ctx st pre = .ok (some st1) →
      consumeLoop p ctx st (pre ++ rest) = consumeLoop p ctx st1 rest := by
    intro n
    induction n with
    | zero =>
        intro pre hlen st st1 rest h
        have hpre : pre = [] := List.length_eq_zero.mp (Nat.le_zero.mp hlen)
        subst hpre
        rw [consumeLoop_nil] at h
        cases h
        rfl
    | succ n ih =>
        intro pre hlen st st1 rest h
        match pre with
        | [] =>
            rw [consumeLoop_nil] at h
            cases h
            rfl
        | arg :: pre' =>
            rw [List.cons_append, consumeLoop_cons]
            rw [consumeLoop_cons] at h
            by_cases hhelp : isHelpToken arg
            · rw [if_pos hhelp] at h
              exact absurd h (by simp)
            · rw [if_neg hhelp] at h
              rw [if_neg hhelp]
              by_cases hdash : strCharAt arg 0 = some '-'
              · rw [if_pos hdash] at h
                rw [if_pos hdash]
                have hlen' : pre'.length ≤ n := by
                  simpa using Nat.le_of_succ_le_succ hlen
                by_cases hdash2 : strCharAt arg 1 = some '-'
                · rw [if_pos hdash2] at h
                  rw [if_pos hdash2]
                  cases hstep : consumeToggleOrOption p ctx st (strDrop arg 2) pre'.head? with
                  | error e =>
                      rw [hstep] at h
                      exact absurd h (by simp)
                  | ok pair =>
                      obtain ⟨st', b⟩ := pair
                      rw [hstep] at h
                      cases b with
                      | false =>
                          rw [consumeToggleOrOption_false_next hstep ((pre' ++ rest).head?)]
                          exact ih pre' hlen' st' st1 rest h
                      | true =>
                          obtain ⟨v, hv⟩ := consumeToggleOrOption_true_next hstep
                          match pre', hv with
                          | a :: pre'', _ =>
                              have hstep' : consumeToggleOrOption p ctx st (strDrop arg 2)
                                  ((a :: pre'' ++ rest).head?) = .ok (st', true) := hstep
                              rw [hstep']
                              exact ih pre'' (by simp at hlen'; omega) st' st1 rest h
                · rw [if_neg hdash2] at h
                  rw [if_neg hdash2]
                  cases hstep : consumeFlags p ctx st (strDrop arg 1).data pre'.head? with
                  | error e =>
                      rw [hstep] at h
                      exact absurd h (by simp)
                  | ok pair =>
                      obtain ⟨st', b⟩ := pair
                      rw [hstep] at h
                      cases b with
                      | false =>
                          rw [consumeFlags_false_next hstep ((pre' ++ rest).head?)]
                          exact ih pre' hlen' st' st1 rest h
                      | true =>
                          obtain ⟨v, hv⟩ := consumeFlags_true_next hstep
                          match pre', hv with
                          | a :: pre'', _ =>
                              have hstep' : consumeFlags p ctx st (strDrop arg 1).data
                                  ((a :: pre'' ++ rest).head?) = .ok (st', true) := hstep
                              rw [hstep']
                              exact ih pre'' (by simp at hlen'; omega) st' st1 rest h
              · rw [if_neg hdash] at h
                rw [if_neg hdash]
                exact ih pre' (by simpa using Nat.le_of_succ_le_succ hlen) _ st1 rest h
  intro pre st st1 rest h
  exact main pre.length pre (Nat.le_refl _) st st1 rest h

/-! ## The loop invariant tying the accumulators to the schema -/

/-- Invariant of the consumption loop: the pending definitions are
exactly the declared ones not yet consumed (in declaration order), the
consumed and pending counts add up to the declared count, and extra
values appear only after every positional definition was consumed. -/
def stInv (p : ArgsParser) (st : ParseState) : Prop :=
  st.pendingParamDefinitions =
    (p.paramDefinitions.getD []).drop st.commandArgs.length ∧
  st.commandArgs.length + st.pendingParamDefinitions.length =
    (p.paramDefinitions.getD []).length ∧
  (st.commandExtraArgs ≠ [] → st.pendingParamDefinitions = [])

theorem stInv_initState (p : ArgsParser) : stInv p (initState p) := by
  unfold initState stInv
  cases p.optionDefinitions <;> simp

theorem stInv_of_framePreserved {p : ArgsParser} {st st' : ParseState}
    (hf : framePreserved st st') (h : stInv p st) : stInv p st' := by
  unfold stInv at h ⊢
  rw [hf.1, hf.2.1, hf.2.2]
  exact h

theorem stInv_consumeArgument {p : ArgsParser} {ctx : Context} {st : ParseState}
    (arg : String) (h : stInv p st) :
    stInv p (consumeArgument ctx (p.paramsDefinition.map ParamsDefinition.type) st arg) := by
  obtain ⟨h1, h2, h3⟩ := h
  unfold consumeArgument
  cases hp : st.pendingParamDefinitions with
  | cons d rest =>
      refine ⟨?_, ?_, ?_⟩
      · simp only
        rw [List.length_append, List.length_singleton]
        have : (p.paramDefinitions.getD []).drop (st.commandArgs.length + 1) =
            ((p.paramDefinitions.getD []).drop st.commandArgs.length).tail := by
          rw [List.tail_drop]
        rw [this, ← h1, hp]
        rfl
      · simp only [List.length_append, List.length_singleton]
        rw [hp] at h2
        simp at h2
        omega
      · intro hx
        simp only at hx
        exact absurd (h3 hx) (by rw [hp]; simp)
  | nil =>
      refine ⟨?_, ?_, ?_⟩
      · simpa [hp] using h1
      · simpa [hp] using h2
      · intro hx
        simp [hp]

/-- The loop preserves `stInv`. -/
theorem consumeLoop_inv (p : ArgsParser) (ctx : Context) :
    ∀ (args : List String) (st st' : ParseState),
    consumeLoop p ctx st args = .ok (some st') → stInv p st → stInv p st' := by
  have main : ∀ (n : Nat) (args : List String), args.length ≤ n →
      ∀ (st st' : ParseState),
      consumeLoop p ctx st args = .ok (some st') → stInv p st → stInv p st' := by
    intro n
    induction n with
    | zero =>
        intro args hlen st st' h hinv
        have hargs : args = [] := List.length_eq_zero.mp (Nat.le_zero.mp hlen)
        subst hargs
        rw [consumeLoop_nil] at h
        cases h
        exact hinv
    | succ n ih =>
        intro args hlen st st' h hinv
        match args with
        | [] =>
            rw [consumeLoop_nil] at h
            cases h
            exact hinv
        | arg :: rest =>
            rw [consumeLoop_cons] at h
            have hlen' : rest.length ≤ n := by
              simpa using Nat.le_of_succ_le_succ hlen
            by_cases hhelp : isHelpToken arg
            · rw [if_pos hhelp] at h
              exact absurd h (by simp)
            · rw [if_neg hhelp] at h
              by_cases hdash : strCharAt arg 0 = some '-'
              · rw [if_pos hdash] at h
                by_cases hdash2 : strCharAt arg 1 = some '-'
                · rw [if_pos hdash2] at h
                  cases hstep : consumeToggleOrOption p ctx st (strDrop arg 2) rest.head? with
                  | error e =>
                      rw [hstep] at h
                      exact absurd h (by simp)
                  | ok pair =>
                      obtain ⟨st1, b⟩ := pair
                      rw [hstep] at h
                      have hinv1 : stInv p st1 :=
                        stInv_of_framePreserved (consumeToggleOrOption_frame hstep) hinv
                      cases b with
                      | false => exact ih rest hlen' st1 st' h hinv1
                      | true =>
                          match rest, hlen' with
                          | [], _ =>
                              cases h
                              exact hinv1
                          | a :: rest', hlen' =>
                              exact ih rest' (by simp at hlen'; omega) st1 st' h hinv1
                · rw [if_neg hdash2] at h
                  cases hstep : consumeFlags p ctx st (strDrop arg 1).data rest.head? with
                  | error e =>
                      rw [hstep] at h
                      exact absurd h (by simp)
                  | ok pair =>
                      obtain ⟨st1, b⟩ := pair
                      rw [hstep] at h
                      have hinv1 : stInv p st1 :=
                        stInv_of_framePreserved (consumeFlags_frame hstep) hinv
                      cases b with
                      | false => exact ih rest hlen' st1 st' h hinv1
                      | true =>
                          match rest, hlen' with
                          | [], _ =>
                              cases h
                              exact hinv1
                          | a :: rest', hlen' =>
                              exact ih rest' (by simp at hlen'; omega) st1 st' h hinv1
              · rw [if_neg hdash] at h
                exact ih rest hlen' _ st' h (stInv_consumeArgument arg hinv)
  intro args st st' h hinv
  exact main args.length args (Nat.le_refl _) st st' h hinv

/-- One-step unfolding of `parse` (the `let` is zeta-reduced). -/
theorem parse_def (p : ArgsParser) (seq args : List String) (cwd : String) :
    p.parse seq args cwd =
      (match consumeLoop p { cwd := cwd, commands := seq } (initState p) args with
       | .error e => .error e
       | .ok none => .ok .help
       | .ok (some st) =>
           match validate p { cwd := cwd, commands := seq } st with
           | .error e => .error e
           | .ok r => .ok (.result r)) := rfl

/-- `parse` after an error-free, help-free consumption is the validation
stage's verdict. -/
theorem parse_after_loop (p : ArgsParser) (seq args : List String) (cwd : String)
    (st : ParseState)
    (hc : consumeLoop p { cwd := cwd, commands := seq } (initState p) args =
      .ok (some st)) :
    p.parse seq args cwd =
      (match validate p { cwd := cwd, commands := seq } st with
       | .error e => .error e
       | .ok r => .ok (.result r)) := by
  rw [parse_def, hc]

/-- A `--`-prefixed token is a help token exactly when the remainder is
`help`. -/
theorem isHelpToken_dashdash (name : String) (h : name ≠ "help") :
    isHelpToken ("--" ++ name) = false := by
  have h1 : ("--" ++ name) ≠ "-h" := by
    intro he
    have hd : '-' :: '-' :: name.data = ['-', 'h'] := congrArg String.data he
    simp at hd
  have h2 : ("--" ++ name) ≠ "-?" := by
    intro he
    have hd : '-' :: '-' :: name.data = ['-', '?'] := congrArg String.data he
    simp at hd
  have h3 : ("--" ++ name) ≠ "--help" := by
    intro he
    have hd : '-' :: '-' :: name.data = ['-', '-', 'h', 'e', 'l', 'p'] :=
      congrArg String.data he
    simp at hd
    exact h (String.ext hd)
  simp [isHelpToken, h1, h2, h3]

/-! ## Concrete example parsers used in counterexamples and witnesses -/

/-- One non-toggle `Number` option `count` with flag `c`. -/
def exampleCountParser : ArgsParser :=
  ArgsParser.make none none
    (some [{ name := "count", flag := some "c", type := .number,
             required := false, toggle := false, default := .undef }]) 0

/-- Two required `String` positionals `a`, `b`. -/
def examplePairParser : ArgsParser :=
  ArgsParser.make
    (some [{ name := "a", type := .string, default := .undef },
           { name := "b", type := .string, default := .undef }]) none none 2

/-- One required `String` positional `p`, no variadic definition. -/
def exampleSingleParamParser : ArgsParser :=
  ArgsParser.make (some [{ name := "p", type := .string, default := .undef }]) none none 1

/-- One required option `o`, no positionals, no variadic definition. -/
def exampleRequiredOptParser : ArgsParser :=
  ArgsParser.make none none
    (some [{ name := "o", flag := none, type := .string,
             required := true, toggle := false, default := .undef }]) 0

/-- Non-toggle option `alpha` (flag `a`) and toggle option `beta`
(flag `b`). -/
def exampleFlagsParser : ArgsParser :=
  ArgsParser.make none none
    (some [{ name := "alpha", flag := some "a", type := .string,
             required := false, toggle := false, default := .undef },
           { name := "beta", flag := some "b", type := .boolean,
             required := false, toggle := true, default := .undef }]) 0

/-- One optional `String` positional `x` with default `"dx"`. -/
def exampleDefaultParser : ArgsParser :=
  ArgsParser.make (some [{ name := "x", type := .string, default := .str "dx" }]) none none 0

/-! ## Claims -/

/-- C7: casting a token with the `Boolean` type tag: a token whose
lowercase form is `"false"` gives `false`; otherwise a token whose
numeric coercion is a (real) number gives `true` exactly when that
number is nonzero; a token whose numeric coercion is NaN gives `true`.
In particular `"false"` gives `false`, `"0"` gives `false`, `"yes"`
gives `true`. -/
theorem claim7_theorem (arg : String) (ctx : Context) :
    (strToLower arg = "false" → castArgument arg CType.boolean ctx = .bool false) ∧
    (strToLower arg ≠ "false" → ∀ q, jsToNumber arg = .num q →
      castArgument arg CType.boolean ctx = .bool (decide (q ≠ 0))) ∧
    (strToLower arg ≠ "false" → jsToNumber arg = .nan →
      castArgument arg CType.boolean ctx = .bool true) ∧
    castArgument "false" CType.boolean ctx = .bool false ∧
    castArgument "0" CType.boolean ctx = .bool false ∧
    castArgument "yes" CType.boolean ctx = .bool true := by
  refine ⟨?_, ?_, ?_, rfl, rfl, rfl⟩
  · intro hf
    simp [castArgument, hf]
  · intro hf q hq
    simp [castArgument, if_neg hf, hq, jsBool]
  · intro hf hq
    simp [castArgument, if_neg hf, hq]

/-- C7 witness: at the concrete tokens `"0"` (numeric coercion `0`,
result `false`) and `"yes"` (numeric coercion NaN, result `true`). -/
theorem claim7_witness :
    castArgument "0" CType.boolean { cwd := "", commands := [] } = .bool false ∧
    castArgument "yes" CType.boolean { cwd := "", commands := [] } = .bool true := by
  constructor
  · have h0 := claim7_theorem "0" { cwd := "", commands := [] }
    have h := h0.2.1 (by decide) 0 (by decide)
    simpa using h
  · have h0 := claim7_theorem "yes" { cwd := "", commands := [] }
    exact h0.2.2.1 (by decide) (by decide)


/-- C8: `castArgument` is total (it is a plain function into `Value`,
raising nothing): `String` returns the token unchanged, `Number` returns
the numeric coercion (NaN included, passed through - shown end to end on
`--count abc`), a custom castable type applies its cast, and any other
type yields `undefined`. -/
theorem claim8_theorem (arg : String) (ctx : Context) :
    castArgument arg CType.string ctx = .str arg ∧
    castArgument arg CType.number ctx = .num (jsToNumber arg) ∧
    (∀ f, castArgument arg (CType.castable f) ctx = f arg ctx) ∧
    castArgument arg CType.plain ctx = .undef ∧
    castArgument "abc" CType.number ctx = .num .nan ∧
    exampleCountParser.parse [] ["--count", "abc"] "" =
      .ok (.result { args := [], extraArgs := [],
                     options := some [("count", Value.num JSNum.nan)],
                     context := { cwd := "", commands := [] } }) :=
  ⟨rfl, rfl, fun _ => rfl, rfl, rfl, by decide⟩

/-- C9: parsing keeps no state on the instance: in the explicit-state
form each call returns the parser unchanged, each of two successive
calls returns exactly what an isolated call returns, and identical
inputs give equal results. -/
theorem claim9_theorem (p : ArgsParser) (s1 a1 : List String) (c1 : String)
    (s2 a2 : List String) (c2 : String) :
    (p.parseSt s1 a1 c1).2 = p ∧
    ((p.parseSt s1 a1 c1).2.parseSt s2 a2 c2).2 = p ∧
    (p.parseSt s1 a1 c1).1 = p.parse s1 a1 c1 ∧
    ((p.parseSt s1 a1 c1).2.parseSt s2 a2 c2).1 = p.parse s2 a2 c2 ∧
    (s1 = s2 → a1 = a2 → c1 = c2 →
      (p.parseSt s1 a1 c1).1 = (p.parseSt s2 a2 c2).1) := by
  refine ⟨rfl, rfl, rfl, rfl, ?_⟩
  intro h1 h2 h3
  rw [h1, h2, h3]

/-- C9 witness: a second call after a first call on the same instance,
and a repeated identical call, at concrete inputs. -/
theorem claim9_witness :
    ((exampleCountParser.parseSt [] [] "").2.parseSt [] ["-c", "3"] "").1 =
      exampleCountParser.parse [] ["-c", "3"] "" ∧
    (exampleCountParser.parseSt [] ["-c", "3"] "").1 =
      (exampleCountParser.parseSt [] ["-c", "3"] "").1 :=
  ⟨(claim9_theorem exampleCountParser [] [] "" [] ["-c", "3"] "").2.2.2.1,
   (claim9_theorem exampleCountParser [] ["-c", "3"] "" [] ["-c", "3"] "").2.2.2.2
     rfl rfl rfl⟩

/-- The token `-` dispatches as an empty flag cluster: the loop state is
unchanged and consumption continues with the next token. -/
theorem consumeLoop_dash (p : ArgsParser) (ctx : Context) (st : ParseState)
    (rest : List String) :
    consumeLoop p ctx st ("-" :: rest) = consumeLoop p ctx st rest := by
  rw [consumeLoop_cons]
  rw [if_neg (by decide : ¬ isHelpToken "-" = true)]
  rw [if_pos (by decide : strCharAt "-" 0 = some '-')]
  rw [if_neg (by decide : ¬ strCharAt "-" 1 = some '-')]
  rw [show (strDrop "-" 1).data = ([] : List Char) from rfl]
  rw [show consumeFlags p ctx st [] rest.head? = .ok (st, false) from rfl]

/-- C10: a token that is exactly `-` is consumed with no effect: no
error, no option set, no positional or extra value, state unchanged,
parsing continuing at the next token; consequently `parse` gives the
same outcome with and without it at the head of the sequence. -/
theorem claim10_theorem (p : ArgsParser) (ctx : Context) (st : ParseState)
    (rest : List String) (seq args : List String) (cwd : String) :
    consumeLoop p ctx st ("-" :: rest) = consumeLoop p ctx st rest ∧
    p.parse seq ("-" :: args) cwd = p.parse seq args cwd := by
  refine ⟨consumeLoop_dash p ctx st rest, ?_⟩
  rw [parse_def, parse_def, consumeLoop_dash]

/-- C1 (counterexample): a help token in an option-value position does
not short-circuit to a help result: with one non-toggle option `count`,
the tokens `["--count", "-h"]` contain `"-h"` yet `parse` raises the
value-looks-like-an-option usage error instead of signalling help. -/
theorem claim1_counterexample :
    "-h" ∈ ["--count", "-h"] ∧
    exampleCountParser.parse [] ["--count", "-h"] "" =
      .error (.usage "Expecting a value instead of an option or toggle \"-h\" for option `count`") ∧
    exampleCountParser.parse [] ["--count", "-h"] "" ≠ .ok .help := by
  refine ⟨by decide, by decide, by decide⟩

/-- C1 (amended): a help token (`-h`, `-?` or `--help`) reached at a
main-loop dispatch position - i.e. after a prefix the loop consumes
without error (which in particular never captures the help token as an
option value) - makes `parse` return a help result, discarding every
following token and skipping all validation. -/
theorem claim1_theorem (p : ArgsParser) (seq pre post : List String) (cwd : String)
    (h : String) (st : ParseState)
    (hh : isHelpToken h = true)
    (hpre : consumeLoop p { cwd := cwd, commands := seq } (initState p) pre =
      .ok (some st)) :
    p.parse seq (pre ++ h :: post) cwd = .ok .help := by
  rw [parse_def]
  rw [consumeLoop_append p { cwd := cwd, commands := seq } pre (initState p) st
    (h :: post) hpre]
  rw [consumeLoop_cons, if_pos hh]

/-- C1 witness: `--help` after the self-contained prefix
`["--count", "x"]` and before further tokens yields a help result. -/
theorem claim1_witness :
    exampleCountParser.parse [] (["--count", "x"] ++ "--help" :: ["y", "z"]) "" =
      .ok .help :=
  claim1_theorem exampleCountParser [] ["--count", "x"] ["y", "z"] "" "--help"
    { commandArgs := [], commandOptions := some [("count", Value.num JSNum.nan)],
      commandExtraArgs := [], requiredOptionMap := some [],
      pendingParamDefinitions := [] }
    (by decide) rfl

/-- C2: whenever `parse` returns a non-help result, the positional value
list has exactly the declared `ParamDefinition` count - it is the
consumed values followed by the defaults of the unconsumed trailing
definitions in declaration order - and `extraArgs` is empty whenever no
variadic definition is declared. -/
theorem claim2_theorem (p : ArgsParser) (seq args : List String) (cwd : String)
    (r : ParsedArgs)
    (h : p.parse seq args cwd = .ok (.result r)) :
    r.args.length = (p.paramDefinitions.getD []).length ∧
    (∃ st, consumeLoop p { cwd := cwd, commands := seq } (initState p) args =
        .ok (some st) ∧
      r.args = st.commandArgs ++ st.pendingParamDefinitions.map ParamDefinition.default) ∧
    (p.paramsDefinition = none → r.extraArgs = []) := by
  rw [parse_def] at h
  cases hc : consumeLoop p { cwd := cwd, commands := seq } (initState p) args with
  | error e =>
      rw [hc] at h
      exact absurd h (by simp)
  | ok o =>
      cases o with
      | none =>
          rw [hc] at h
          exact absurd h (by simp)
      | some st =>
          rw [hc] at h
          have h' : (match validate p { cwd := cwd, commands := seq } st with
                     | .error e => (Except.error e : Except Err ParseResult)
                     | .ok r0 => Except.ok (ParseResult.result r0)) =
              Except.ok (ParseResult.result r) := h
          cases hv : validate p { cwd := cwd, commands := seq } st with
          | error e =>
              rw [hv] at h'
              exact absurd h' (by simp)
          | ok r0 =>
              rw [hv] at h'
              simp only [Except.ok.injEq, ParseResult.result.injEq] at h'
              subst h'
              have hinv := consumeLoop_inv p { cwd := cwd, commands := seq }
                args (initState p) st hc (stInv_initState p)
              unfold validate at hv
              split at hv
              · exact absurd hv (by simp)
              · split at hv
                · exact absurd hv (by simp)
                · split at hv
                  · split at hv
                    · exact absurd hv (by simp)
                    · rename_i hx hpd
                      injection hv with hv
                      subst hv
                      refine ⟨?_, ⟨st, rfl, rfl⟩, ?_⟩
                      · simp only [List.length_append, List.length_map]
                        exact hinv.2.1
                      · intro hnone
                        rw [hnone] at hpd
                        exact absurd hpd (by simp)
                  · rename_i hx
                    split at hv
                    · split at hv
                      · exact absurd hv (by simp)
                      · injection hv with hv
                        subst hv
                        refine ⟨?_, ⟨st, rfl, rfl⟩, ?_⟩
                        · simp only [List.length_append, List.length_map]
                          exact hinv.2.1
                        · intro hnone
                          simpa using hx
                    · injection hv with hv
                      subst hv
                      refine ⟨?_, ⟨st, rfl, rfl⟩, ?_⟩
                      · simp only [List.length_append, List.length_map]
                        exact hinv.2.1
                      · intro hnone
                        simpa using hx

/-- C2 witness: one optional positional with default `"dx"` and no
tokens: the result has exactly one positional value (the default) and no
extra values. -/
theorem claim2_witness :
    exampleDefaultParser.parse [] [] "" =
      .ok (.result { args := [Value.str "dx"], extraArgs := [], options := none,
                     context := { cwd := "", commands := [] } }) ∧
    ({ args := [Value.str "dx"], extraArgs := [], options := none,
       context := { cwd := "", commands := [] } } : ParsedArgs).args.length =
      (exampleDefaultParser.paramDefinitions.getD []).length ∧
    (exampleDefaultParser.paramsDefinition = none →
      ({ args := [Value.str "dx"], extraArgs := [], options := none,
         context := { cwd := "", commands := [] } } : ParsedArgs).extraArgs = []) := by
  refine ⟨by decide, ?_, ?_⟩
  · exact (claim2_theorem exampleDefaultParser [] [] "" _ (by decide)).1
  · exact (claim2_theorem exampleDefaultParser [] [] "" _ (by decide)).2.2

/-- C3: after an error-free consumption, validation is ordered and each
failure terminal: if fewer positionals were collected than required,
`parse` fails with `Expecting argument(s) ` followed by the backtick-
quoted names of the missing trailing required parameters, comma-space
joined (regardless of the option state); otherwise, if required options
remain unsatisfied, it fails with `Missing required option(s) ` listing
them backtick-quoted and comma-joined. -/
theorem claim3_theorem (p : ArgsParser) (seq args : List String) (cwd : String)
    (st : ParseState)
    (hc : consumeLoop p { cwd := cwd, commands := seq } (initState p) args =
      .ok (some st)) :
    (st.commandArgs.length < p.requiredParamsNumber →
      p.parse seq args cwd = .error (.usage ("Expecting argument(s) " ++
        String.intercalate ", "
          ((((p.paramDefinitions.getD []).drop st.commandArgs.length).take
              (p.requiredParamsNumber - st.commandArgs.length)).map
            (fun d => "`" ++ d.name ++ "`"))))) ∧
    (¬ st.commandArgs.length < p.requiredParamsNumber →
      ∀ rm, st.requiredOptionMap = some rm → objKeys rm ≠ [] →
        p.parse seq args cwd = .error (.usage ("Missing required option(s) `" ++
          String.intercalate "`, `" (objKeys rm) ++ "`"))) := by
  have hinv := consumeLoop_inv p { cwd := cwd, commands := seq }
    args (initState p) st hc (stInv_initState p)
  constructor
  · intro hlt
    have hval : validate p { cwd := cwd, commands := seq } st =
        .error (.usage ("Expecting argument(s) " ++ String.intercalate ", "
          ((((p.paramDefinitions.getD []).drop st.commandArgs.length).take
              (p.requiredParamsNumber - st.commandArgs.length)).map
            (fun d => "`" ++ d.name ++ "`")))) := by
      unfold validate
      rw [if_pos hlt, hinv.1]
    rw [parse_after_loop p seq args cwd st hc, hval]
  · intro hge rm hrm hne
    have hval : validate p { cwd := cwd, commands := seq } st =
        .error (.usage ("Missing required option(s) `" ++
          String.intercalate "`, `" (objKeys rm) ++ "`")) := by
      unfold validate
      rw [if_neg hge]
      split
      · rename_i n ns heq
        rw [hrm] at heq
        have heq2 : some (objKeys rm) = some (n :: ns) := heq
        injection heq2 with hkeq
        rw [hkeq]
      · rename_i hnotall
        exfalso
        cases hk : objKeys rm with
        | nil => exact hne hk
        | cons k ks =>
            refine hnotall k ks ?_
            rw [hrm]
            exact congrArg some hk
    rw [parse_after_loop p seq args cwd st hc, hval]

/-- C3 witness: two required positionals `a`, `b` and no tokens: the
first validation step fails with the spec's exact message. -/
theorem claim3_witness :
    examplePairParser.parse [] [] "" =
      .error (.usage "Expecting argument(s) `a`, `b`") := by
  have h := (claim3_theorem examplePairParser [] [] ""
    (initState examplePairParser) rfl).1 (by decide)
  simpa using h

/-- C4 (counterexample): extra positional values do not always produce
the excess-positional message: with no variadic definition, no
positionals and a required option `o`, the tokens `["x"]` collect one
extra value but `parse` fails with the required-option message instead
(the required-option check runs first). -/
theorem claim4_counterexample :
    exampleRequiredOptParser.paramsDefinition = none ∧
    consumeLoop exampleRequiredOptParser { cwd := "", commands := [] }
      (initState exampleRequiredOptParser) ["x"] =
      .ok (some { commandArgs := [], commandOptions := some [("o", Value.undef)],
                  commandExtraArgs := [Value.str "x"],
                  requiredOptionMap := some [("o", true)],
                  pendingParamDefinitions := [] }) ∧
    ([Value.str "x"] : List Value).length = 1 ∧
    exampleRequiredOptParser.parse [] ["x"] "" =
      .error (.usage "Missing required option(s) `o`") ∧
    ("Missing required option(s) `o`" : String) ≠
      "Expecting 0 parameter(s) at most but got 1 instead" :=
  ⟨rfl, rfl, rfl, by decide, by decide⟩

/-- C4 (amended): when consumption collects extra positional values, the
schema has no variadic definition, the declared required count does not
exceed the declared parameter count, and every required option was
satisfied, `parse` fails with exactly
`Expecting <N> parameter(s) at most but got <M> instead`, `N` the
declared parameter count and `M` that count plus the number of extra
values. -/
theorem claim4_theorem (p : ArgsParser) (seq args : List String) (cwd : String)
    (st : ParseState)
    (hc : consumeLoop p { cwd := cwd, commands := seq } (initState p) args =
      .ok (some st))
    (hnovar : p.paramsDefinition = none)
    (hextra : st.commandExtraArgs ≠ [])
    (hwf : p.requiredParamsNumber ≤ (p.paramDefinitions.getD []).length)
    (hopts : ∀ rm, st.requiredOptionMap = some rm → rm = []) :
    p.parse seq args cwd = .error (.usage ("Expecting " ++
      toString (p.paramDefinitions.getD []).length ++
      " parameter(s) at most but got " ++
      toString (st.commandExtraArgs.length + (p.paramDefinitions.getD []).length) ++
      " instead")) := by
  have hinv := consumeLoop_inv p { cwd := cwd, commands := seq }
    args (initState p) st hc (stInv_initState p)
  have hpending : st.pendingParamDefinitions = [] := hinv.2.2 hextra
  have hgot : st.commandArgs.length = (p.paramDefinitions.getD []).length := by
    have h2 := hinv.2.1
    rw [hpending] at h2
    simpa using h2
  have hlen : st.commandExtraArgs.length ≠ 0 := by
    simpa [List.length_eq_zero] using hextra
  have hval : validate p { cwd := cwd, commands := seq } st =
      .error (.usage ("Expecting " ++
        toString (p.paramDefinitions.getD []).length ++
        " parameter(s) at most but got " ++
        toString (st.commandExtraArgs.length + (p.paramDefinitions.getD []).length) ++
        " instead")) := by
    unfold validate
    rw [if_neg (by omega)]
    split
    · rename_i n ns heq
      exfalso
      cases hrm : st.requiredOptionMap with
      | none =>
          rw [hrm] at heq
          exact Option.noConfusion heq
      | some rm =>
          rw [hrm, hopts rm hrm] at heq
          have heq2 : some ([] : List String) = some (n :: ns) := heq
          injection heq2 with hkeq
          exact List.noConfusion hkeq
    · rw [if_pos hlen, hnovar]
  rw [parse_after_loop p seq args cwd st hc, hval]

/-- C4 witness: the claim's particular instance - one positional
parameter, no variadic definition, tokens `["x", "y"]`. -/
theorem claim4_witness :
    exampleSingleParamParser.parse [] ["x", "y"] "" =
      .error (.usage "Expecting 1 parameter(s) at most but got 2 instead") := by
  have h := claim4_theorem exampleSingleParamParser [] ["x", "y"] ""
    { commandArgs := [Value.str "x"], commandOptions := none,
      commandExtraArgs := [Value.str "y"], requiredOptionMap := none,
      pendingParamDefinitions := [] }
    rfl rfl (by decide) (by decide) (fun rm hrm => Option.noConfusion hrm)
  simpa using h

/-- Consuming `--name` for a known non-toggle option: mark it satisfied
when required, then hand the lookahead token to `consumeOption`. -/
theorem consumeToggleOrOption_nonToggle (p : ArgsParser) (ctx : Context)
    (ca : List Value) (co : List (String × Value)) (ce : List Value)
    (rm : List (String × Bool)) (pd : List ParamDefinition)
    (name : String) (defn : OptionDefinition) (dm : List (String × OptionDefinition))
    (hdm : p.optionDefinitionMap = some dm)
    (hget : objGet dm name = some defn)
    (htoggle : defn.toggle = false)
    (next : Option String) :
    consumeToggleOrOption p ctx
      { commandArgs := ca, commandOptions := some co, commandExtraArgs := ce,
        requiredOptionMap := some rm, pendingParamDefinitions := pd } name next =
      (consumeOption ctx
        { commandArgs := ca, commandOptions := some co, commandExtraArgs := ce,
          requiredOptionMap := some (if defn.required then objDelete rm name else rm),
          pendingParamDefinitions := pd } name defn next).map (fun s => (s, true)) := by
  unfold consumeToggleOrOption deleteRequired
  simp only [hdm, hget, htoggle]
  cases hreq : defn.required with
  | true => simp [hreq]
  | false => simp [hreq]

/-- C5: a known non-toggle option consumed as a long option (the token
is `--<name>`, `<name>` in the option map and not the reserved `help`):
with no next token the loop fails with `Expecting value for option
\`<name>\``; with a next token starting with `-` it fails with
`Expecting a value instead of an option or toggle "<token>" for option
\`<name>\``; otherwise the next token is removed from the sequence, cast
with the option's declared type and stored as the option's value, and
consumption continues after it. -/
theorem claim5_theorem (p : ArgsParser) (ctx : Context)
    (ca : List Value) (co : List (String × Value)) (ce : List Value)
    (rm : List (String × Bool)) (pd : List ParamDefinition)
    (name : String) (defn : OptionDefinition) (dm : List (String × OptionDefinition))
    (hdm : p.optionDefinitionMap = some dm)
    (hget : objGet dm name = some defn)
    (htoggle : defn.toggle = false)
    (hname : name ≠ "help") :
    (consumeLoop p ctx
        { commandArgs := ca, commandOptions := some co, commandExtraArgs := ce,
          requiredOptionMap := some rm, pendingParamDefinitions := pd }
        [("--" ++ name)] =
      .error (.usage ("Expecting value for option `" ++ name ++ "`"))) ∧
    (∀ v rest, strCharAt v 0 = some '-' →
      consumeLoop p ctx
          { commandArgs := ca, commandOptions := some co, commandExtraArgs := ce,
            requiredOptionMap := some rm, pendingParamDefinitions := pd }
          (("--" ++ name) :: v :: rest) =
        .error (.usage ("Expecting a value instead of an option or toggle \"" ++ v ++
          "\" for option `" ++ name ++ "`"))) ∧
    (∀ v rest, ¬ strCharAt v 0 = some '-' →
      consumeLoop p ctx
          { commandArgs := ca, commandOptions := some co, commandExtraArgs := ce,
            requiredOptionMap := some rm, pendingParamDefinitions := pd }
          (("--" ++ name) :: v :: rest) =
        consumeLoop p ctx
          { commandArgs := ca,
            commandOptions := some (objSet co name (castArgument v defn.type ctx)),
            commandExtraArgs := ce,
            requiredOptionMap := some (if defn.required then objDelete rm name else rm),
            pendingParamDefinitions := pd }
          rest) := by
  have hnothelp : ¬ isHelpToken ("--" ++ name) = true := by
    rw [isHelpToken_dashdash name hname]
    exact Bool.false_ne_true
  have hchar0 : strCharAt ("--" ++ name) 0 = some '-' := rfl
  have hchar1 : strCharAt ("--" ++ name) 1 = some '-' := rfl
  have hdrop : strDrop ("--" ++ name) 2 = name := rfl
  refine ⟨?_, ?_, ?_⟩
  · rw [consumeLoop_cons, if_neg hnothelp, if_pos hchar0, if_pos hchar1, hdrop]
    rw [consumeToggleOrOption_nonToggle p ctx ca co ce rm pd name defn dm hdm hget htoggle]
    rfl
  · intro v rest hv
    rw [consumeLoop_cons, if_neg hnothelp, if_pos hchar0, if_pos hchar1, hdrop]
    rw [consumeToggleOrOption_nonToggle p ctx ca co ce rm pd name defn dm hdm hget htoggle]
    rw [show consumeOption ctx
        { commandArgs := ca, commandOptions := some co, commandExtraArgs := ce,
          requiredOptionMap := some (if defn.required then objDelete rm name else rm),
          pendingParamDefinitions := pd } name defn ((v :: rest).head?) =
      (if strCharAt v 0 = some '-' then
        Except.error (Err.usage ("Expecting a value instead of an option or toggle \"" ++ v ++
          "\" for option `" ++ name ++ "`"))
      else
        setOption
          { commandArgs := ca, commandOptions := some co, commandExtraArgs := ce,
            requiredOptionMap := some (if defn.required then objDelete rm name else rm),
            pendingParamDefinitions := pd } name (castArgument v defn.type ctx)) from rfl]
    rw [if_pos hv]
    rfl
  · intro v rest hv
    rw [consumeLoop_cons, if_neg hnothelp, if_pos hchar0, if_pos hchar1, hdrop]
    rw [consumeToggleOrOption_nonToggle p ctx ca co ce rm pd name defn dm hdm hget htoggle]
    rw [show consumeOption ctx
        { commandArgs := ca, commandOptions := some co, commandExtraArgs := ce,
          requiredOptionMap := some (if defn.required then objDelete rm name else rm),
          pendingParamDefinitions := pd } name defn ((v :: rest).head?) =
      (if strCharAt v 0 = some '-' then
        Except.error (Err.usage ("Expecting a value instead of an option or toggle \"" ++ v ++
          "\" for option `" ++ name ++ "`"))
      else
        setOption
          { commandArgs := ca, commandOptions := some co, commandExtraArgs := ce,
            requiredOptionMap := some (if defn.required then objDelete rm name else rm),
            pendingParamDefinitions := pd } name (castArgument v defn.type ctx)) from rfl]
    rw [if_neg hv]
    rfl

/-- C5 witness: the non-toggle option `count`: missing value, a value
token `-x` that looks like an option, and a plain value `x` that is cast
and stored. -/
theorem claim5_witness :
    exampleCountParser.parse [] ["--count"] "" =
      .error (.usage "Expecting value for option `count`") ∧
    exampleCountParser.parse [] ["--count", "-x"] "" =
      .error (.usage "Expecting a value instead of an option or toggle \"-x\" for option `count`") ∧
    consumeLoop exampleCountParser { cwd := "", commands := [] }
        { commandArgs := [], commandOptions := some [("count", Value.undef)],
          commandExtraArgs := [], requiredOptionMap := some [],
          pendingParamDefinitions := [] }
        ["--count", "x"] =
      consumeLoop exampleCountParser { cwd := "", commands := [] }
        { commandArgs := [],
          commandOptions := some [("count", Value.num JSNum.nan)],
          commandExtraArgs := [], requiredOptionMap := some [],
          pendingParamDefinitions := [] }
        [] := by
  have h5 := claim5_theorem exampleCountParser { cwd := "", commands := [] }
    [] [("count", Value.undef)] [] [] []
    "count"
    { name := "count", flag := some "c", type := .number,
      required := false, toggle := false, default := .undef }
    [("count", { name := "count", flag := some "c", type := .number,
                 required := false, toggle := false, default := .undef })]
    rfl rfl rfl (by decide)
  refine ⟨?_, ?_, ?_⟩
  · have h51 : consumeLoop exampleCountParser { cwd := "", commands := [] }
        { commandArgs := [], commandOptions := some [("count", Value.undef)],
          commandExtraArgs := [], requiredOptionMap := some [],
          pendingParamDefinitions := [] } ["--count"] =
        .error (.usage "Expecting value for option `count`") := h5.1
    rw [parse_def]
    rw [show (initState exampleCountParser) =
      ({ commandArgs := [], commandOptions := some [("count", Value.undef)],
         commandExtraArgs := [], requiredOptionMap := some [],
         pendingParamDefinitions := [] } : ParseState) from rfl]
    rw [h51]
  · have h52 : consumeLoop exampleCountParser { cwd := "", commands := [] }
        { commandArgs := [], commandOptions := some [("count", Value.undef)],
          commandExtraArgs := [], requiredOptionMap := some [],
          pendingParamDefinitions := [] } ["--count", "-x"] =
        .error (.usage "Expecting a value instead of an option or toggle \"-x\" for option `count`") :=
      h5.2.1 "-x" [] rfl
    rw [parse_def]
    rw [show (initState exampleCountParser) =
      ({ commandArgs := [], commandOptions := some [("count", Value.undef)],
         commandExtraArgs := [], requiredOptionMap := some [],
         pendingParamDefinitions := [] } : ParseState) from rfl]
    rw [h52]
  · exact h5.2.2 "x" [] (by decide)

/-- C6: a single-dash token's remaining characters are processed left to
right as a flag cluster: (i) such a token dispatches to the cluster
processor and its errors are the loop's errors; (ii) a character with no
flag mapping fails with `Unknown option flag "<char>"`; (iii) a toggle
flag sets its option to `true` and processing continues with the rest of
the cluster; (iv) a non-toggle flag that is not last fails with
`Only the last flag in a sequence can refer to an option instead of a
toggle`; (v) a non-toggle flag in last position consumes the lookahead
token through the same `consumeOption` used for long options. -/
theorem claim6_theorem (p : ArgsParser) (ctx : Context)
    (ca : List Value) (co : List (String × Value)) (ce : List Value)
    (rm : List (String × Bool)) (pd : List ParamDefinition)
    (fm : List (String × String)) (dm : List (String × OptionDefinition))
    (hfm : p.optionFlagMapping = some fm)
    (hdm : p.optionDefinitionMap = some dm) :
    (∀ t rest e, isHelpToken t = false → strCharAt t 0 = some '-' →
      ¬ strCharAt t 1 = some '-' →
      consumeFlags p ctx
        { commandArgs := ca, commandOptions := some co, commandExtraArgs := ce,
          requiredOptionMap := some rm, pendingParamDefinitions := pd }
        (strDrop t 1).data rest.head? = .error e →
      consumeLoop p ctx
        { commandArgs := ca, commandOptions := some co, commandExtraArgs := ce,
          requiredOptionMap := some rm, pendingParamDefinitions := pd }
        (t :: rest) = .error e) ∧
    (∀ c restF next, objGet fm (String.mk [c]) = none →
      consumeFlags p ctx
        { commandArgs := ca, commandOptions := some co, commandExtraArgs := ce,
          requiredOptionMap := some rm, pendingParamDefinitions := pd }
        (c :: restF) next =
      .error (.usage ("Unknown option flag \"" ++ String.mk [c] ++ "\""))) ∧
    (∀ c restF next name defn, objGet fm (String.mk [c]) = some name →
      objGet dm name = some defn → defn.toggle = true →
      consumeFlags p ctx
        { commandArgs := ca, commandOptions := some co, commandExtraArgs := ce,
          requiredOptionMap := some rm, pendingParamDefinitions := pd }
        (c :: restF) next =
      consumeFlags p ctx
        { commandArgs := ca,
          commandOptions := some (objSet co name (Value.bool true)),
          commandExtraArgs := ce,
          requiredOptionMap := some (if defn.required then objDelete rm name else rm),
          pendingParamDefinitions := pd }
        restF next) ∧
    (∀ c restF next name defn, objGet fm (String.mk [c]) = some name →
      objGet dm name = some defn → defn.toggle = false → restF ≠ [] →
      consumeFlags p ctx
        { commandArgs := ca, commandOptions := some co, commandExtraArgs := ce,
          requiredOptionMap := some rm, pendingParamDefinitions := pd }
        (c :: restF) next =
      .error (.usage "Only the last flag in a sequence can refer to an option instead of a toggle")) ∧
    (∀ c next name defn, objGet fm (String.mk [c]) = some name →
      objGet dm name = some defn → defn.toggle = false →
      consumeFlags p ctx
        { commandArgs := ca, commandOptions := some co, commandExtraArgs := ce,
          requiredOptionMap := some rm, pendingParamDefinitions := pd }
        [c] next =
      (consumeOption ctx
        { commandArgs := ca, commandOptions := some co, commandExtraArgs := ce,
          requiredOptionMap := some (if defn.required then objDelete rm name else rm),
          pendingParamDefinitions := pd }
        name defn next).map (fun s => (s, true))) := by
  refine ⟨?_, ?_, ?_, ?_, ?_⟩
  · intro t rest e hhelp ht0 ht1 hflags
    rw [consumeLoop_cons]
    rw [if_neg (by rw [hhelp]; exact Bool.false_ne_true)]
    rw [if_pos ht0, if_neg ht1, hflags]
  · intro c restF next hunk
    rw [consumeFlags]
    simp only [hfm, hunk]
  · intro c restF next name defn hflag hget htog
    rw [consumeFlags]
    unfold deleteRequired setOption
    simp only [hfm, hflag, hdm, hget, htog]
    cases hreq : defn.required with
    | true => simp [hreq]
    | false => simp [hreq]
  · intro c restF next name defn hflag hget htog hne
    rw [consumeFlags]
    unfold deleteRequired
    simp only [hfm, hflag, hdm, hget, htog]
    cases hreq : defn.required with
    | true => simp [hreq, hne]
    | false => simp [hreq, hne]
  · intro c next name defn hflag hget htog
    rw [consumeFlags]
    unfold deleteRequired
    simp only [hfm, hflag, hdm, hget, htog]
    cases hreq : defn.required with
    | true =>
        cases hco : consumeOption ctx
            { commandArgs := ca, commandOptions := some co, commandExtraArgs := ce,
              requiredOptionMap := some (objDelete rm name),
              pendingParamDefinitions := pd } name defn next with
        | error e => simp [hco, Except.map]
        | ok st2 => simp [hco, Except.map]
    | false =>
        cases hco : consumeOption ctx
            { commandArgs := ca, commandOptions := some co, commandExtraArgs := ce,
              requiredOptionMap := some rm,
              pendingParamDefinitions := pd } name defn next with
        | error e => simp [hco, Except.map]
        | ok st2 => simp [hco, Except.map]

/-- C6 witness: flags `a` (non-toggle `alpha`) and `b` (toggle `beta`):
unknown flag `z`, the cluster `ab` with the non-toggle first, the
toggle step of `ba`, the last-position consumption for `a`, and the
loop dispatch of the error for the token `-ab`. -/
theorem claim6_witness :
    consumeFlags exampleFlagsParser { cwd := "", commands := [] }
        { commandArgs := [],
          commandOptions := some [("alpha", Value.undef), ("beta", Value.bool false)],
          commandExtraArgs := [], requiredOptionMap := some [],
          pendingParamDefinitions := [] }
        ['z'] none =
      .error (.usage "Unknown option flag \"z\"") ∧
    consumeFlags exampleFlagsParser { cwd := "", commands := [] }
        { commandArgs := [],
          commandOptions := some [("alpha", Value.undef), ("beta", Value.bool false)],
          commandExtraArgs := [], requiredOptionMap := some [],
          pendingParamDefinitions := [] }
        ['a', 'b'] none =
      .error (.usage "Only the last flag in a sequence can refer to an option instead of a toggle") ∧
    consumeFlags exampleFlagsParser { cwd := "", commands := [] }
        { commandArgs := [],
          commandOptions := some [("alpha", Value.undef), ("beta", Value.bool false)],
          commandExtraArgs := [], requiredOptionMap := some [],
          pendingParamDefinitions := [] }
        ['b', 'a'] (some "v") =
      consumeFlags exampleFlagsParser { cwd := "", commands := [] }
        { commandArgs := [],
          commandOptions := some [("alpha", Value.undef), ("beta", Value.bool true)],
          commandExtraArgs := [], requiredOptionMap := some [],
          pendingParamDefinitions := [] }
        ['a'] (some "v") ∧
    consumeLoop exampleFlagsParser { cwd := "", commands := [] }
        { commandArgs := [],
          commandOptions := some [("alpha", Value.undef), ("beta", Value.bool false)],
          commandExtraArgs := [], requiredOptionMap := some [],
          pendingParamDefinitions := [] }
        ["-ab"] =
      .error (.usage "Only the last flag in a sequence can refer to an option instead of a toggle") := by
  have h6 := claim6_theorem exampleFlagsParser { cwd := "", commands := [] }
    [] [("alpha", Value.undef), ("beta", Value.bool false)] [] [] []
    [("a", "alpha"), ("b", "beta")]
    [("alpha", { name := "alpha", flag := some "a", type := .string,
                 required := false, toggle := false, default := .undef }),
     ("beta", { name := "beta", flag := some "b", type := .boolean,
                required := false, toggle := true, default := .undef })]
    rfl rfl
  refine ⟨?_, ?_, ?_, ?_⟩
  · exact h6.2.1 'z' [] none rfl
  · exact h6.2.2.2.1 'a' ['b'] none "alpha"
      { name := "alpha", flag := some "a", type := .string,
        required := false, toggle := false, default := .undef }
      rfl rfl rfl (by decide)
  · exact h6.2.2.1 'b' ['a'] (some "v") "beta"
      { name := "beta", flag := some "b", type := .boolean,
        required := false, toggle := true, default := .undef }
      rfl rfl rfl
  · refine h6.1 "-ab" [] (.usage "Only the last flag in a sequence can refer to an option instead of a toggle")
      rfl rfl (by decide) ?_
    exact h6.2.2.2.1 'a' ['b'] none "alpha"
      { name := "alpha", flag := some "a", type := .string,
        required := false, toggle := false, default := .undef }
      rfl rfl rfl (by decide)

end Clime
